import Mathlib

/-!
Verification of the GTFS analysis engine (`src/gtfs_code.py`) against its
natural-language specification.

Shallow embedding conventions:
* pandas DataFrames become Lean lists of record structures; columns that the
  code casts (`astype`, `pd.to_datetime`) are carried in their cast form;
* the `calendar_dates` table, whose columns the code accesses inside a bare
  `try`/`except`, is carried in raw form (a list of column names plus rows as
  association lists) so that absent columns can be modelled;
* strings stay `String`; machine integers are `Int`/`Nat`;
* Python functions that can raise return `Except`/`Option`.
-/

namespace GTFS

/-! ### Time codec: `seconds_after_midnight`

The source splits the time string on `:`, casts each component with numpy's
`astype(int)` (which accepts an optional sign before the digits) and takes the
dot product with `[3600, 60, 1]`.  A string that does not split into exactly
three integer components makes `astype(int)` (or the dot product's shape
check) raise; that is the `none` case here. -/

def digitsToNat (l : List Char) : Nat :=
  l.foldl (fun a c => a * 10 + (c.toNat - ('0').toNat)) 0

/-- Splitting a character list on `:`, with Python `str.split(':')` semantics
(the empty string yields one empty component, separators at the ends yield
empty components). -/
def splitColon : List Char → List (List Char)
  | [] => [[]]
  | c :: rest =>
      match splitColon rest with
      | [] => if c = ':' then [[], []] else [[c]]
      | h :: t => if c = ':' then [] :: h :: t else (c :: h) :: t

/-- Integer parsing as numpy's `astype(int)` performs it on a decimal string:
an optional `+`/`-` sign followed by one or more digits. -/
def parseIntChars (l : List Char) : Option Int :=
  match l with
  | [] => none
  | c :: rest =>
      if c = '-' then
        if rest ≠ [] ∧ rest.all Char.isDigit then some (-(digitsToNat rest : Int)) else none
      else if c = '+' then
        if rest ≠ [] ∧ rest.all Char.isDigit then some (digitsToNat rest : Int) else none
      else
        if (c :: rest).all Char.isDigit then some (digitsToNat (c :: rest) : Int) else none

/-- The function `seconds_after_midnight` on one string: split on `:` into exactly three
integer components and dot with `[3600, 60, 1]`. -/
def seconds_after_midnight (s : String) : Option Int :=
  match (splitColon s.data).map parseIntChars with
  | [some h, some m, some sec] => some (h * 3600 + m * 60 + sec)
  | _ => none

theorem parseIntChars_digits (l : List Char) (hne : l ≠ [])
    (hd : l.all Char.isDigit) : parseIntChars l = some (digitsToNat l : Int) := by
  unfold parseIntChars
  match h : l with
  | [] => exact absurd rfl hne
  | c :: rest =>
      have hc : c.isDigit := by
        have := (List.all_eq_true.mp hd) c (by simp)
        simpa using this
      have hcm : c ≠ '-' := by
        intro hcontra; rw [hcontra] at hc; simp [Char.isDigit] at hc
      have hcp : c ≠ '+' := by
        intro hcontra; rw [hcontra] at hc; simp [Char.isDigit] at hc
      simp [hcm, hcp, hd]

/-! ### Dates

`get_services` validates the query date with `vali_date(date, '%Y%m%d')`
(a `strptime`/`strftime` round trip) and converts calendar
`start_date`/`end_date` columns with `pd.to_datetime`.  Dates are embedded as
year/month/day triples; comparison of parsed dates is comparison of their day
numbers (rata die), which agrees with timestamp comparison, and Python's
`datetime.weekday()` (Monday = 0) is the day number shifted mod 7.
`strptime(s, '%Y%m%d')` composed with the round-trip check accepts exactly
the canonical zero-padded 8-digit strings denoting real calendar dates
(non-padded parses such as `'2023611'` re-format differently and are
rejected by `vali_date`). -/

def isLeap (y : Nat) : Bool := (y % 4 == 0 && y % 100 != 0) || (y % 400 == 0)

def daysInMonth (y m : Nat) : Nat :=
  if m = 2 then (if isLeap y then 29 else 28)
  else if m = 4 ∨ m = 6 ∨ m = 9 ∨ m = 11 then 30
  else 31

structure Date where
  year : Nat
  month : Nat
  day : Nat
deriving DecidableEq, Repr

def daysBeforeMonth (y m : Nat) : Nat :=
  (List.range (m - 1)).foldl (fun a i => a + daysInMonth y (i + 1)) 0

/-- Rata-die day number (0001-01-01 is day 1); proleptic Gregorian, as
Python's `datetime` uses. -/
def Date.toRata (d : Date) : Nat :=
  365 * (d.year - 1) + (d.year - 1) / 4 - (d.year - 1) / 100 + (d.year - 1) / 400
    + daysBeforeMonth d.year d.month + d.day

/-- Python's `datetime.weekday()`: Monday = 0 … Sunday = 6. -/
def Date.weekday (d : Date) : Nat := (d.toRata + 6) % 7

def pad2 (n : Nat) : String := if n < 10 then "0" ++ toString n else toString n

def pad4 (n : Nat) : String :=
  if n < 10 then "000" ++ toString n
  else if n < 100 then "00" ++ toString n
  else if n < 1000 then "0" ++ toString n
  else toString n

/-- Python's `datetime.strftime('%Y%m%d')`. -/
def strftimeYMD (d : Date) : String := pad4 d.year ++ pad2 d.month ++ pad2 d.day

/-- Python's `datetime.strptime(s, '%Y%m%d')` restricted to the canonical 8-digit
form (the only form surviving the round-trip check in `vali_date`). -/
def strptimeYMD (s : String) : Option Date :=
  let cs := s.data
  if cs.length = 8 ∧ cs.all Char.isDigit then
    let y := digitsToNat (cs.take 4)
    let m := digitsToNat ((cs.drop 4).take 2)
    let d := digitsToNat (cs.drop 6)
    if 1 ≤ y ∧ 1 ≤ m ∧ m ≤ 12 ∧ 1 ≤ d ∧ d ≤ daysInMonth y m then
      some ⟨y, m, d⟩
    else none
  else none

/-- The check `vali_date(date, '%Y%m%d')`: the string parses and re-formats to
itself. -/
def vali_date (s : String) : Bool :=
  match strptimeYMD s with
  | some d => strftimeYMD d == s
  | none => false

example : (strptimeYMD "20230605").map Date.weekday = some 0 := by decide
example : (strptimeYMD "20230624").map Date.weekday = some 5 := by decide
example : (strptimeYMD "19700101").map Date.weekday = some 3 := by decide
example : vali_date "20230605" = true := by decide
example : vali_date "2023065" = false := by decide
example : vali_date "20230532" = false := by decide
example : vali_date "20240229" = true := by decide
example : vali_date "20230229" = false := by decide

/-! ### Calendar model and `get_services`

`calendar` is embedded with its `start_date`/`end_date` already cast by
`pd.to_datetime` (the code converts those two columns before comparing) and
its weekday-flag columns kept as strings compared against `'1'`.
`calendar_dates` is kept raw because every access to it happens inside a
bare `try`/`except` that falls back to the weekly base set: `gtfs
['calendar_dates']` (KeyError when absent), `calendar_dates.date`
(AttributeError when the column is absent), and
`exceptions.exception_type` / `.loc[..., 'service_id']` (AttributeError /
KeyError) — the last two only raise if some row matched the date, since
otherwise pandas never evaluates them on rows.  The result is a set of
service ids: the code's final value is `set(services) - set(to_remove) |
set(to_add)` in the exception branch and the base array (whose membership
is what every claim is about) otherwise. -/

structure CalendarRow where
  service_id : String
  monday : String
  tuesday : String
  wednesday : String
  thursday : String
  friday : String
  saturday : String
  sunday : String
  start_date : Date
  end_date : Date
deriving DecidableEq, Repr

/-- The `dow_dict` column selection: weekday number → weekday-flag column. -/
def dayFlag (r : CalendarRow) (w : Nat) : String :=
  match w with
  | 0 => r.monday
  | 1 => r.tuesday
  | 2 => r.wednesday
  | 3 => r.thursday
  | 4 => r.friday
  | 5 => r.saturday
  | _ => r.sunday

/-- A raw pandas table: its column list plus rows as association lists. -/
structure RawTable where
  cols : List String
  rows : List (List (String × String))
deriving DecidableEq, Repr

def lookupCol (row : List (String × String)) (c : String) : String :=
  ((row.find? (fun p => p.1 = c)).map Prod.snd).getD ""

/-- The weekly base selection
`calendar.loc[(start_date <= dt_date) & (end_date >= dt_date) & (calendar[dow] == '1'), 'service_id']`. -/
def baseServices (calendar : List CalendarRow) (d : Date) : List String :=
  (calendar.filter (fun r =>
    decide (r.start_date.toRata ≤ d.toRata) && decide (d.toRata ≤ r.end_date.toRata)
      && (dayFlag r d.weekday == "1"))).map (fun r => r.service_id)

def baseSet (calendar : List CalendarRow) (d : Date) : Finset String :=
  (baseServices calendar d).toFinset

/-- The filter `calendar_dates.loc[calendar_dates.date == dt_date.strftime('%Y%m%d'), :]`. -/
def exceptionsFor (t : RawTable) (ds : String) : List (List (String × String)) :=
  t.rows.filter (fun r => lookupCol r "date" == ds)

/-- The selection `exceptions.loc[exceptions.exception_type == '1', 'service_id']` as a set. -/
def addedSet (t : RawTable) (ds : String) : Finset String :=
  (((exceptionsFor t ds).filter (fun r => lookupCol r "exception_type" == "1")).map
    (fun r => lookupCol r "service_id")).toFinset

/-- The selection `exceptions.loc[exceptions.exception_type == '2', 'service_id']` as a set. -/
def removedSet (t : RawTable) (ds : String) : Finset String :=
  (((exceptionsFor t ds).filter (fun r => lookupCol r "exception_type" == "2")).map
    (fun r => lookupCol r "service_id")).toFinset

instance {ε α : Type} [DecidableEq ε] [DecidableEq α] : DecidableEq (Except ε α) := fun x y =>
  match x, y with
  | Except.ok a, Except.ok b => decidable_of_iff (a = b) (by simp)
  | Except.error a, Except.error b => decidable_of_iff (a = b) (by simp)
  | Except.ok _, Except.error _ => isFalse (fun h => Except.noConfusion h)
  | Except.error _, Except.ok _ => isFalse (fun h => Except.noConfusion h)

/-- The resolver `get_services(gtfs, date)` with the default `'%Y%m%d'` format.  The
`.error` case is the uncaught `ValueError('The date is not valid')`. -/
def get_services (calendar : List CalendarRow) (calendar_dates : Option RawTable)
    (date : String) : Except Unit (Finset String) :=
  if vali_date date then
    match strptimeYMD date with
    | none => Except.error ()
    | some d =>
        let services := baseSet calendar d
        match calendar_dates with
        | none => Except.ok services
        | some t =>
            if "date" ∈ t.cols then
              if 0 < (exceptionsFor t (strftimeYMD d)).length then
                if "exception_type" ∈ t.cols ∧ "service_id" ∈ t.cols then
                  Except.ok ((services \ removedSet t (strftimeYMD d))
                    ∪ addedSet t (strftimeYMD d))
                else Except.ok services
              else Except.ok services
            else Except.ok services
  else Except.error ()

/-! ### Concrete data used by witnesses -/

/-- Two weekly services: `WD` Monday–Friday, `WE` Saturday–Sunday,
both valid through 2023. -/
def calA : List CalendarRow :=
  [⟨"WD", "1", "1", "1", "1", "1", "0", "0", ⟨2023, 1, 1⟩, ⟨2023, 12, 31⟩⟩,
   ⟨"WE", "0", "0", "0", "0", "0", "1", "1", ⟨2023, 1, 1⟩, ⟨2023, 12, 31⟩⟩]

/-- Exceptions for 2023-06-05 (a Monday): `WD` both removed and added,
`SP` added, and for 2023-06-06: `WD` removed only. -/
def cdsA : RawTable :=
  ⟨["service_id", "date", "exception_type"],
   [[("service_id", "WD"), ("date", "20230605"), ("exception_type", "2")],
    [("service_id", "SP"), ("date", "20230605"), ("exception_type", "1")],
    [("service_id", "WD"), ("date", "20230605"), ("exception_type", "1")],
    [("service_id", "WD"), ("date", "20230606"), ("exception_type", "2")]]⟩

/-- A `calendar_dates` table that exists but lacks the `date` column:
pandas raises `AttributeError` on `calendar_dates.date`, which the bare
`except` swallows. -/
def cdsNoDateCol : RawTable :=
  ⟨["service_id", "exception_type"],
   [[("service_id", "WD"), ("exception_type", "2")]]⟩

/-- A `calendar_dates` table with a `date` column and a matching row but no
`exception_type` column. -/
def cdsNoTypeCol : RawTable :=
  ⟨["service_id", "date"],
   [[("service_id", "WD"), ("date", "20230605")]]⟩

/-! ### C1, C2, C10 theorems -/

/-- C1: for every calendar, exception table and valid date with exception
rows matching that date, `get_services` returns `(Base ∖ REMOVED) ∪ ADDED`;
a service id with both an ADDED and a REMOVED exception for the date is in
the result (ADDED wins), and a service id with only a REMOVED exception is
not in the result even when the weekly rules include it. -/
theorem get_services_exception_override
    (calendar : List CalendarRow) (t : RawTable) (date : String) (d : Date)
    (hv : vali_date date = true) (hp : strptimeYMD date = some d)
    (hdate : "date" ∈ t.cols) (het : "exception_type" ∈ t.cols)
    (hsid : "service_id" ∈ t.cols)
    (hne : 0 < (exceptionsFor t (strftimeYMD d)).length) :
    get_services calendar (some t) date
      = Except.ok ((baseSet calendar d \ removedSet t (strftimeYMD d))
          ∪ addedSet t (strftimeYMD d))
    ∧ (∀ s, s ∈ addedSet t (strftimeYMD d) →
        s ∈ (baseSet calendar d \ removedSet t (strftimeYMD d)) ∪ addedSet t (strftimeYMD d))
    ∧ (∀ s, s ∈ removedSet t (strftimeYMD d) → s ∉ addedSet t (strftimeYMD d) →
        s ∉ (baseSet calendar d \ removedSet t (strftimeYMD d)) ∪ addedSet t (strftimeYMD d)) := by
  refine ⟨?_, ?_, ?_⟩
  · simp [get_services, hv, hp, hdate, het, hsid, hne]
  · intro s hs
    exact Finset.mem_union_right _ hs
  · intro s hrem hadd
    intro hmem
    rcases Finset.mem_union.mp hmem with h | h
    · exact (Finset.mem_sdiff.mp h).2 hrem
    · exact hadd h

theorem get_services_exception_override_witness :
    vali_date "20230605" = true
    ∧ strptimeYMD "20230605" = some ⟨2023, 6, 5⟩
    ∧ get_services calA (some cdsA) "20230605" = Except.ok {"SP", "WD"}
    ∧ "WD" ∈ addedSet cdsA "20230605" ∧ "WD" ∈ removedSet cdsA "20230605"
    ∧ get_services calA (some cdsA) "20230606" = Except.ok ∅ := by
  have h := get_services_exception_override calA cdsA "20230605" ⟨2023, 6, 5⟩
    (by decide) (by decide) (by decide) (by decide) (by decide) (by decide)
  refine ⟨by decide, by decide, ?_, by decide, by decide, by decide⟩
  rw [h.1]
  decide

/-- C2: for every calendar and valid date with no exception rows matching
that date, a service id is in the result exactly when some calendar entry
for it has `start_date ≤ date ≤ end_date` and the weekday flag of the
date's weekday equal to `'1'`. -/
theorem get_services_base_semantics
    (calendar : List CalendarRow) (calendar_dates : Option RawTable) (date : String) (d : Date)
    (hv : vali_date date = true) (hp : strptimeYMD date = some d)
    (hno : ∀ t, calendar_dates = some t → exceptionsFor t (strftimeYMD d) = []) :
    get_services calendar calendar_dates date = Except.ok (baseSet calendar d)
    ∧ (∀ S, S ∈ baseSet calendar d ↔ ∃ r ∈ calendar, r.service_id = S
        ∧ r.start_date.toRata ≤ d.toRata ∧ d.toRata ≤ r.end_date.toRata
        ∧ dayFlag r d.weekday = "1") := by
  constructor
  · cases hcd : calendar_dates with
    | none => simp [get_services, hv, hp]
    | some t =>
        have hempty := hno t hcd
        by_cases hdc : "date" ∈ t.cols
        · simp [get_services, hv, hp, hdc, hempty]
        · simp [get_services, hv, hp, hdc]
  · intro S
    simp only [baseSet, baseServices, List.mem_toFinset, List.mem_map, List.mem_filter,
      Bool.and_eq_true, decide_eq_true_eq, beq_iff_eq]
    tauto

theorem get_services_base_semantics_witness :
    vali_date "20230610" = true
    ∧ strptimeYMD "20230610" = some ⟨2023, 6, 10⟩
    ∧ exceptionsFor cdsA "20230610" = []
    ∧ get_services calA (some cdsA) "20230610" = Except.ok (baseSet calA ⟨2023, 6, 10⟩)
    ∧ "WE" ∈ baseSet calA ⟨2023, 6, 10⟩ ∧ "WD" ∉ baseSet calA ⟨2023, 6, 10⟩ := by
  have h := get_services_base_semantics calA (some cdsA) "20230610" ⟨2023, 6, 10⟩
    (by decide) (by decide) (by intro t ht; cases ht; decide)
  exact ⟨by decide, by decide, by decide, h.1, by decide, by decide⟩

/-- C10: any error raised while reading or filtering `calendar_dates` — not
only its absence; e.g. a missing `date` column, or a matching row together
with a missing `exception_type` or `service_id` column — is swallowed by
the bare `except`, and the weekly base set is returned unchanged. -/
theorem get_services_swallows_calendar_dates_errors
    (calendar : List CalendarRow) (t : RawTable) (date : String) (d : Date)
    (hv : vali_date date = true) (hp : strptimeYMD date = some d)
    (herr : "date" ∉ t.cols
      ∨ (0 < (exceptionsFor t (strftimeYMD d)).length
          ∧ ¬("exception_type" ∈ t.cols ∧ "service_id" ∈ t.cols))) :
    get_services calendar (some t) date = Except.ok (baseSet calendar d) := by
  rcases herr with hdc | ⟨hne, hcols⟩
  · simp [get_services, hv, hp, hdc]
  · by_cases hdc : "date" ∈ t.cols
    · simp [get_services, hv, hp, hdc, hne, hcols]
    · simp [get_services, hv, hp, hdc]

theorem get_services_swallows_calendar_dates_errors_witness :
    ("date" ∉ cdsNoDateCol.cols
      ∧ get_services calA (some cdsNoDateCol) "20230605" = Except.ok (baseSet calA ⟨2023, 6, 5⟩))
    ∧ (0 < (exceptionsFor cdsNoTypeCol "20230605").length
      ∧ "exception_type" ∉ cdsNoTypeCol.cols
      ∧ get_services calA (some cdsNoTypeCol) "20230605" = Except.ok (baseSet calA ⟨2023, 6, 5⟩)) := by
  refine ⟨⟨by decide, ?_⟩, ⟨by decide, by decide, ?_⟩⟩
  · exact get_services_swallows_calendar_dates_errors calA cdsNoDateCol "20230605" ⟨2023, 6, 5⟩
      (by decide) (by decide) (Or.inl (by decide))
  · exact get_services_swallows_calendar_dates_errors calA cdsNoTypeCol "20230605" ⟨2023, 6, 5⟩
      (by decide) (by decide) (Or.inr ⟨by decide, by decide⟩)

/-! ### C3, C4 theorems -/

/-- C3: for every well-formed time string "HH:MM:SS" (three nonempty
all-digit components), `seconds_after_midnight` returns
`HH*3600 + MM*60 + SS` without wrapping modulo 86400; concretely
`to_seconds("25:10:00") = 90600` (beyond 86400, not wrapped) and
`to_seconds("08:05:03") = 29103`. -/
theorem seconds_after_midnight_formula
    (s : String) (a b c : List Char)
    (hsplit : splitColon s.data = [a, b, c])
    (ha : a ≠ [] ∧ a.all Char.isDigit)
    (hb : b ≠ [] ∧ b.all Char.isDigit)
    (hc : c ≠ [] ∧ c.all Char.isDigit) :
    seconds_after_midnight s
      = some ((digitsToNat a : Int) * 3600 + (digitsToNat b : Int) * 60 + (digitsToNat c : Int))
    ∧ seconds_after_midnight "25:10:00" = some 90600
    ∧ (90600 : Int) > 86400
    ∧ seconds_after_midnight "08:05:03" = some 29103 := by
  refine ⟨?_, by decide, by decide, by decide⟩
  unfold seconds_after_midnight
  rw [hsplit]
  simp [parseIntChars_digits a ha.1 ha.2, parseIntChars_digits b hb.1 hb.2,
    parseIntChars_digits c hc.1 hc.2]

theorem seconds_after_midnight_formula_witness :
    splitColon ("10:20:30").data = [['1', '0'], ['2', '0'], ['3', '0']]
    ∧ seconds_after_midnight "10:20:30" = some 37230 := by
  have h := seconds_after_midnight_formula "10:20:30" ['1', '0'] ['2', '0'] ['3', '0']
    (by decide) (by decide) (by decide) (by decide)
  exact ⟨by decide, h.1⟩

/-- C4 counterexample: the claim says a time string with a negative
component fails with `MalformedTimeError`, but `"-1:10:00"` splits into
exactly three integer components, one of them negative, and
`seconds_after_midnight` returns normally with `-3000` (numpy's
`astype(int)` accepts a sign prefix). -/
theorem seconds_after_midnight_negative_accepted :
    splitColon ("-1:10:00").data = [['-', '1'], ['1', '0'], ['0', '0']]
    ∧ parseIntChars ['-', '1'] = some (-1)
    ∧ seconds_after_midnight "-1:10:00" = some (-3000) := by decide

/-- C4 amended: `seconds_after_midnight` fails exactly when the string does
not split on `:` into exactly three integer components; components with a
sign prefix — negative ones included — are accepted and contribute their
signed value. -/
theorem seconds_after_midnight_failure_condition (s : String) :
    seconds_after_midnight s = none
      ↔ ¬ ∃ x y z : Int, (splitColon s.data).map parseIntChars = [some x, some y, some z] := by
  constructor
  · intro hn hex
    rcases hex with ⟨x, y, z, hxyz⟩
    unfold seconds_after_midnight at hn
    rw [hxyz] at hn
    simp at hn
  · intro hnex
    unfold seconds_after_midnight
    split
    · rename_i x y z heq
      exact absurd ⟨x, y, z, heq⟩ hnex
    · rfl

/-! ### Trips: `get_trips` -/

structure Trip where
  trip_id : String
  route_id : String
  service_id : String
  shape_id : String
deriving DecidableEq, Repr

/-- The selection core of `get_trips`: filter by
`trips.service_id.isin(services)` and, only when `routes.shape[0] > 0`,
further by `trips.route_id.isin(routes)`. -/
def select_trips (trips : List Trip) (services : Finset String)
    (routes : List String) : List Trip :=
  let t := trips.filter (fun tr => decide (tr.service_id ∈ services))
  if 0 < routes.length then t.filter (fun tr => decide (tr.route_id ∈ routes)) else t

/-- The function `get_trips(gtfs, date, format, routes)`: resolve the active services for
the date, then select. -/
def get_trips (trips : List Trip) (calendar : List CalendarRow)
    (calendar_dates : Option RawTable) (date : String) (routes : List String) :
    Except Unit (List Trip) :=
  match get_services calendar calendar_dates date with
  | Except.error e => Except.error e
  | Except.ok services => Except.ok (select_trips trips services routes)

/-- C5: a trip is selected exactly when its `service_id` is among the active
services and the route filter is empty or contains its `route_id`; an empty
route filter selects all trips of active services rather than none. -/
theorem select_trips_spec (trips : List Trip) (services : Finset String)
    (routes : List String) (tr : Trip) :
    tr ∈ select_trips trips services routes
      ↔ tr ∈ trips ∧ tr.service_id ∈ services ∧ (routes = [] ∨ tr.route_id ∈ routes) := by
  by_cases h : 0 < routes.length
  · have hne : routes ≠ [] := by
      intro hc; rw [hc] at h; simp at h
    simp only [select_trips, h, if_true, List.mem_filter, decide_eq_true_eq, hne,
      false_or]
    tauto
  · have he : routes = [] := by
      cases routes with
      | nil => rfl
      | cons a t => simp at h
    simp [select_trips, h, List.mem_filter, he]

/-! ### `check_tables` and `load_tables`

The archive side of `load_tables` (zip extraction, CSV parsing) is an
external collaborator; what the two functions inspect is the set of table
names present, so the embedding works with that list of names.
`check_tables` builds its message by appending `f'"{mt}", '` per missing
table, trimming the final two characters and appending a fixed suffix; on
failure `load_tables`' bare `except` discards it and re-raises `ValueError()`
— whose message (`str(ValueError())`) is the empty string.  Python iterates
`set(essential_tables) - set(present_tables)` in an unspecified (hash-
randomized) order; the embedding fixes the order of `essential_tables`,
which determines the same set of listed tables. -/

def essential_tables : List String :=
  ["agency", "calendar", "routes", "stop_times", "stops", "trips"]

def missing_tables (present : List String) : List String :=
  essential_tables.filter (fun t => decide (t ∉ present))

/-- The quoted table name `'"' + mt + '"'` as characters. -/
def quoteCore (mt : String) : List Char := '"' :: (mt.data ++ ['"'])

/-- One loop step appends `f'"{mt}", '`. -/
def quoteChars (mt : String) : List Char := quoteCore mt ++ [',', ' ']

def msg_suffix : List Char :=
  (" tables are missing, please check your GTFS zipfile.").data

/-- The error string of `check_tables`: `"The "` plus the quoted names,
with the trailing two characters (`", "`) cut by `error_str[:-2]`, plus the
fixed suffix. -/
def check_tables_msg (missing : List String) : List Char :=
  let error_str := ("The ").data ++ (missing.map quoteChars).flatten
  error_str.take (error_str.length - 2) ++ msg_suffix

def check_tables (present : List String) : Except (List Char) Unit :=
  if missing_tables present = [] then Except.ok ()
  else Except.error (check_tables_msg (missing_tables present))

/-- The tail of `load_tables` after the reads: `try: check_tables(gtfs); return gtfs
except: raise ValueError` — the re-raised error carries no message. -/
def load_tables (present : List String) : Except (List Char) (List String) :=
  match check_tables present with
  | Except.ok _ => Except.ok present
  | Except.error _ => Except.error []

theorem take_sub_two_append {X Y : List Char} (h : 2 ≤ Y.length) :
    (X ++ Y).take ((X ++ Y).length - 2) = X ++ Y.take (Y.length - 2) := by
  rw [List.take_append_eq_append_take]
  have h1 : X.length ≤ (X ++ Y).length - 2 := by
    simp only [List.length_append]; omega
  have h2 : (X ++ Y).length - 2 - X.length = Y.length - 2 := by
    simp only [List.length_append]; omega
  rw [List.take_of_length_le h1, h2]

/-- Every missing table's quoted name survives the `[:-2]` trim into the
final `check_tables` message. -/
theorem quoted_in_check_tables_msg (missing : List String) (t : String)
    (ht : t ∈ missing) : quoteCore t <:+: check_tables_msg missing := by
  obtain ⟨l1, l2, rfl⟩ := List.append_of_mem ht
  simp only [check_tables_msg]
  have hstr : ("The ").data ++ ((l1 ++ t :: l2).map quoteChars).flatten
      = (("The ").data ++ (l1.map quoteChars).flatten ++ quoteCore t)
        ++ ([',', ' '] ++ (l2.map quoteChars).flatten) := by
    simp [quoteChars, List.append_assoc]
  rw [hstr, take_sub_two_append (by simp)]
  refine ⟨("The ").data ++ (l1.map quoteChars).flatten,
    ([',', ' '] ++ (l2.map quoteChars).flatten).take
      (([',', ' '] ++ (l2.map quoteChars).flatten).length - 2) ++ msg_suffix, ?_⟩
  simp [List.append_assoc]

/-- C6 counterexample: with `agency` absent from the archive, `load_tables`
does fail, but with the bare re-raised `ValueError`, whose message is empty
and in particular does not list the missing `agency` table — the listing
message built by `check_tables` is discarded. -/
theorem load_tables_message_lost :
    load_tables ["calendar", "routes", "stop_times", "stops", "trips"]
      = Except.error []
    ∧ ¬ (quoteCore "agency" <:+: ([] : List Char))
    ∧ quoteCore "agency"
        <:+: check_tables_msg
          (missing_tables ["calendar", "routes", "stop_times", "stops", "trips"]) := by
  refine ⟨by decide, ?_, ?_⟩
  · rintro ⟨s, t, h⟩
    simp [quoteCore] at h
  · exact quoted_in_check_tables_msg _ _ (by decide)

/-- C6 amended: `load_tables` succeeds exactly when all six required tables
are present; when one is absent it fails, but with a bare `ValueError`
carrying an empty message — the message listing (quoting) every missing
table is built by `check_tables` and discarded by `load_tables`. -/
theorem load_tables_spec (present : List String) :
    (load_tables present = Except.ok present ↔ ∀ t ∈ essential_tables, t ∈ present)
    ∧ (missing_tables present ≠ [] → load_tables present = Except.error [])
    ∧ (∀ t, t ∈ missing_tables present
        → quoteCore t <:+: check_tables_msg (missing_tables present)) := by
  refine ⟨?_, ?_, ?_⟩
  · unfold load_tables check_tables
    by_cases h : missing_tables present = []
    · simp only [h, if_true]
      constructor
      · intro _ t hte
        have := List.filter_eq_nil_iff.mp h t hte
        simpa using this
      · intro _; trivial
    · simp only [h, if_false]
      constructor
      · intro hcontra; cases hcontra
      · intro hall
        exfalso
        apply h
        apply List.filter_eq_nil_iff.mpr
        intro a ha
        simpa using hall a ha
  · intro h
    unfold load_tables check_tables
    simp only [h, if_false]
  · intro t ht
    exact quoted_in_check_tables_msg _ _ ht

theorem load_tables_spec_witness :
    load_tables essential_tables = Except.ok essential_tables
    ∧ load_tables ["calendar"] = Except.error []
    ∧ quoteCore "agency" <:+: check_tables_msg (missing_tables ["calendar"]) := by
  refine ⟨(load_tables_spec essential_tables).1.mpr (by decide),
    (load_tables_spec ["calendar"]).2.1 (by decide),
    (load_tables_spec ["calendar"]).2.2 "agency" (by decide)⟩

/-! ### `interstop_time`

The code casts `stop_sequence` to `int`, sorts by `['trip_id',
'stop_sequence']` (pandas multi-column sorts are stable lexicographic
sorts; the embedding uses a stable insertion sort over the same key, and
string comparison is Python's code-point lexicographic order), converts the
two time columns (numpy raises on any unparsable entry, hence `Option`),
and sets `interstop_time = arrival_seconds -
groupby('trip_id').departure_seconds.shift()` followed by `fillna(0)`:
each row's value is its arrival seconds minus the previous same-trip row's
departure seconds, and `0` where the shift produced `NaN` (the first row of
each trip). -/

structure StopTimeRow where
  trip_id : String
  stop_id : String
  stop_sequence : Int
  arrival_time : String
  departure_time : String
deriving DecidableEq, Repr

structure InterstopRow where
  trip_id : String
  stop_id : String
  stop_sequence : Int
  arrival_time : String
  departure_time : String
  arrival_seconds : Int
  departure_seconds : Int
  interstop_time : Int
deriving DecidableEq, Repr

/-- Python's string `<`: lexicographic comparison of code points. -/
def charListLt : List Char → List Char → Bool
  | [], [] => false
  | [], _ :: _ => true
  | _ :: _, [] => false
  | a :: as, b :: bs =>
      if a.toNat < b.toNat then true
      else if b.toNat < a.toNat then false
      else charListLt as bs

theorem charListLt_irrefl (l : List Char) : charListLt l l = false := by
  induction l with
  | nil => rfl
  | cons a as ih => simp [charListLt, ih]

theorem charListLt_trans : ∀ {a b c : List Char},
    charListLt a b = true → charListLt b c = true → charListLt a c = true
  | [], [], _, hab, _ => by simp [charListLt] at hab
  | [], _ :: _, [], _, hbc => by simp [charListLt] at hbc
  | [], _ :: _, _ :: _, _, _ => by simp [charListLt]
  | _ :: _, [], _, hab, _ => by simp [charListLt] at hab
  | _ :: _, _ :: _, [], _, hbc => by simp [charListLt] at hbc
  | a :: as, b :: bs, c :: cs, hab, hbc => by
      simp only [charListLt] at hab hbc ⊢
      rcases Nat.lt_trichotomy a.toNat b.toNat with h1 | h1 | h1
      · rcases Nat.lt_trichotomy b.toNat c.toNat with h2 | h2 | h2
        · rw [if_pos (Nat.lt_trans h1 h2)]
        · rw [if_pos (show a.toNat < c.toNat by omega)]
        · rw [if_neg (by omega), if_pos h2] at hbc
          exact absurd hbc (by simp)
      · rw [if_neg (by omega), if_neg (by omega)] at hab
        rcases Nat.lt_trichotomy b.toNat c.toNat with h2 | h2 | h2
        · rw [if_pos (show a.toNat < c.toNat by omega)]
        · rw [if_neg (by omega), if_neg (by omega)] at hbc
          rw [if_neg (by omega), if_neg (by omega)]
          exact charListLt_trans hab hbc
        · rw [if_neg (by omega), if_pos h2] at hbc
          exact absurd hbc (by simp)
      · rw [if_neg (by omega), if_pos h1] at hab
        exact absurd hab (by simp)

theorem charListLt_conn : ∀ {a b : List Char},
    charListLt a b = false → charListLt b a = false → a = b
  | [], [], _, _ => rfl
  | [], _ :: _, hab, _ => by simp [charListLt] at hab
  | _ :: _, [], _, hba => by simp [charListLt] at hba
  | a :: as, b :: bs, hab, hba => by
      simp only [charListLt] at hab hba
      by_cases h1 : a.toNat < b.toNat
      · simp [h1] at hab
      · by_cases h2 : b.toNat < a.toNat
        · simp [h1, h2] at hab hba
        · have hab2 : a.toNat = b.toNat :=
            Nat.le_antisymm (Nat.le_of_not_lt h2) (Nat.le_of_not_lt h1)
          have hac : a = b := by
            have h := congrArg Char.ofNat hab2
            rwa [Char.ofNat_toNat, Char.ofNat_toNat] at h
          simp only [h1, h2, if_false] at hab hba
          rw [hac, charListLt_conn hab hba]

/-- The sort key of `sort_values(by=['trip_id', 'stop_sequence'])`:
lexicographic on (trip_id, stop_sequence). -/
def stKeyLe (a b : StopTimeRow) : Prop :=
  charListLt a.trip_id.data b.trip_id.data = true
    ∨ (a.trip_id = b.trip_id ∧ a.stop_sequence ≤ b.stop_sequence)

instance : DecidableRel stKeyLe := fun a b => by
  unfold stKeyLe; exact inferInstance

instance : IsTotal StopTimeRow stKeyLe :=
  ⟨by
    intro a b
    by_cases h1 : charListLt a.trip_id.data b.trip_id.data = true
    · exact Or.inl (Or.inl h1)
    · by_cases h2 : charListLt b.trip_id.data a.trip_id.data = true
      · exact Or.inr (Or.inl h2)
      · have heq : a.trip_id = b.trip_id :=
          String.ext (charListLt_conn (Bool.eq_false_iff.mpr h1) (Bool.eq_false_iff.mpr h2))
        rcases Int.le_total a.stop_sequence b.stop_sequence with h | h
        · exact Or.inl (Or.inr ⟨heq, h⟩)
        · exact Or.inr (Or.inr ⟨heq.symm, h⟩)⟩

instance : IsTrans StopTimeRow stKeyLe :=
  ⟨by
    intro a b c hab hbc
    rcases hab with h1 | ⟨he1, hs1⟩
    · rcases hbc with h2 | ⟨he2, _⟩
      · exact Or.inl (charListLt_trans h1 h2)
      · exact Or.inl (he2 ▸ h1)
    · rcases hbc with h2 | ⟨he2, hs2⟩
      · exact Or.inl (he1 ▸ h2)
      · exact Or.inr ⟨he1.trans he2, le_trans hs1 hs2⟩⟩

/-- Row-wise time conversion (`seconds_after_midnight` over the two time
columns); `interstop_time` starts at 0, to be filled by `addInterstop`. -/
def parseRow (r : StopTimeRow) : Option InterstopRow :=
  match seconds_after_midnight r.arrival_time, seconds_after_midnight r.departure_time with
  | some a, some d =>
      some ⟨r.trip_id, r.stop_id, r.stop_sequence, r.arrival_time, r.departure_time, a, d, 0⟩
  | _, _ => none

def parseRows : List StopTimeRow → Option (List InterstopRow)
  | [] => some []
  | r :: rest =>
      match parseRow r, parseRows rest with
      | some pr, some prs => some (pr :: prs)
      | _, _ => none

/-- The column `arrival_seconds - groupby('trip_id').departure_seconds.shift()` with
`fillna(0)`, walking the sorted frame: the accumulator carries the previous
row's (trip_id, departure_seconds); same-trip rows are contiguous after the
sort, so the previous row of the same trip is the direct predecessor. -/
def addInterstop : Option (String × Int) → List InterstopRow → List InterstopRow
  | _, [] => []
  | prev, r :: rest =>
      let it : Int :=
        match prev with
        | some (tid, dep) => if tid = r.trip_id then r.arrival_seconds - dep else 0
        | none => 0
      { r with interstop_time := it }
        :: addInterstop (some (r.trip_id, r.departure_seconds)) rest

/-- The function `interstop_time(stop_times)`: sort, convert times, add the
`interstop_time` column. -/
def interstop_time (stop_times : List StopTimeRow) : Option (List InterstopRow) :=
  match parseRows (List.insertionSort stKeyLe stop_times) with
  | some parsed => some (addInterstop none parsed)
  | none => none

/-- Projection back to the base columns (those `interstop_time` leaves
untouched). -/
def baseRow (r : InterstopRow) : StopTimeRow :=
  ⟨r.trip_id, r.stop_id, r.stop_sequence, r.arrival_time, r.departure_time⟩

theorem parseRows_baseRow : ∀ {l : List StopTimeRow} {pl : List InterstopRow},
    parseRows l = some pl → pl.map baseRow = l
  | [], pl, h => by
      simp only [parseRows] at h
      cases h
      rfl
  | r :: rest, pl, h => by
      simp only [parseRows] at h
      cases hr : parseRow r with
      | none => rw [hr] at h; cases h
      | some pr =>
          cases hrest : parseRows rest with
          | none => rw [hr, hrest] at h; cases h
          | some prs =>
              rw [hr, hrest] at h
              cases h
              have hbase : baseRow pr = r := by
                unfold parseRow at hr
                cases ha : seconds_after_midnight r.arrival_time with
                | none => rw [ha] at hr; cases hr
                | some a =>
                    cases hd : seconds_after_midnight r.departure_time with
                    | none => rw [ha, hd] at hr; cases hr
                    | some d =>
                        rw [ha, hd] at hr
                        cases hr
                        rfl
              simp [hbase, parseRows_baseRow hrest]

theorem addInterstop_baseRow : ∀ (prev : Option (String × Int)) (l : List InterstopRow),
    (addInterstop prev l).map baseRow = l.map baseRow
  | _, [] => rfl
  | prev, r :: rest => by
      simp only [addInterstop, List.map_cons]
      rw [addInterstop_baseRow _ rest]
      rfl

theorem addInterstop_succ_it : ∀ (prev : Option (String × Int)) (l : List InterstopRow)
    (i : Nat) (h1 : i + 1 < (addInterstop prev l).length)
    (h0 : i < (addInterstop prev l).length),
    ((addInterstop prev l).get ⟨i + 1, h1⟩).interstop_time
      = if ((addInterstop prev l).get ⟨i, h0⟩).trip_id
            = ((addInterstop prev l).get ⟨i + 1, h1⟩).trip_id
        then ((addInterstop prev l).get ⟨i + 1, h1⟩).arrival_seconds
          - ((addInterstop prev l).get ⟨i, h0⟩).departure_seconds
        else 0
  | _, [], i, h1, _ => by simp [addInterstop] at h1
  | _, [r], i, h1, _ => by simp [addInterstop] at h1
  | prev, r :: s :: rest, 0, h1, h0 => by simp [addInterstop]
  | prev, r :: s :: rest, n + 1, h1, h0 => by
      have h := addInterstop_succ_it (some (r.trip_id, r.departure_seconds)) (s :: rest) n
        (by simpa [addInterstop] using h1) (by simpa [addInterstop] using h0)
      simpa [addInterstop] using h

theorem addInterstop_first_it (l : List InterstopRow)
    (h0 : 0 < (addInterstop none l).length) :
    ((addInterstop none l).get ⟨0, h0⟩).interstop_time = 0 := by
  cases l with
  | nil => simp [addInterstop] at h0
  | cons r rest => simp [addInterstop]

/-- C8 amended: in the output of `interstop_time`, each row that follows a
row of the same trip carries `interstop_time = arrival_seconds[i] -
departure_seconds[i-1]`, and the first row of the frame — where the
grouped shift produced `NaN` — carries the filled value `0` rather than no
segment. -/
theorem interstop_time_segment_formula (stop_times : List StopTimeRow)
    (out : List InterstopRow) (hout : interstop_time stop_times = some out) :
    (∀ (i : Nat) (h1 : i + 1 < out.length) (h0 : i < out.length),
      (out.get ⟨i, h0⟩).trip_id = (out.get ⟨i + 1, h1⟩).trip_id →
      (out.get ⟨i + 1, h1⟩).interstop_time
        = (out.get ⟨i + 1, h1⟩).arrival_seconds - (out.get ⟨i, h0⟩).departure_seconds)
    ∧ (∀ h0 : 0 < out.length, (out.get ⟨0, h0⟩).interstop_time = 0) := by
  unfold interstop_time at hout
  cases hp : parseRows (List.insertionSort stKeyLe stop_times) with
  | none => rw [hp] at hout; cases hout
  | some parsed =>
      rw [hp] at hout
      cases hout
      constructor
      · intro i h1 h0 htrip
        rw [addInterstop_succ_it none parsed i h1 h0, if_pos htrip]
      · intro h0
        exact addInterstop_first_it parsed h0

/-- The concrete trip of the claim: rows (seq 1, dep 28800 = "08:00:00"),
(seq 2, arr 29100 = "08:05:00"), (seq 3, arr 29400 = "08:10:00"). -/
def stA : List StopTimeRow :=
  [⟨"T1", "A", 1, "08:00:00", "08:00:00"⟩,
   ⟨"T1", "B", 2, "08:05:00", "08:05:00"⟩,
   ⟨"T1", "C", 3, "08:10:00", "08:10:00"⟩]

/-- The output frame `interstop_time` produces for `stA`. -/
def outA : List InterstopRow :=
  [⟨"T1", "A", 1, "08:00:00", "08:00:00", 28800, 28800, 0⟩,
   ⟨"T1", "B", 2, "08:05:00", "08:05:00", 29100, 29100, 300⟩,
   ⟨"T1", "C", 3, "08:10:00", "08:10:00", 29400, 29400, 300⟩]

/-- C8 counterexample: on the claim's concrete trip the two segments do get
elapsed times 300 and 300, but the first stop does not yield "no segment":
its output row carries the numeric `interstop_time` value `0` (the `NaN`
from the shift is silently filled with 0), indistinguishable from a genuine
zero-elapsed segment. -/
theorem interstop_time_first_row_zero :
    (interstop_time stA).map (List.map (fun r => (r.stop_sequence, r.interstop_time)))
      = some [(1, 0), (2, 300), (3, 300)] := by decide

theorem interstop_time_segment_formula_witness :
    interstop_time stA = some outA
    ∧ (outA.get ⟨1, by decide⟩).interstop_time = 300
    ∧ (outA.get ⟨0, by decide⟩).interstop_time = 0 := by
  have h := interstop_time_segment_formula stA outA (by decide)
  refine ⟨by decide, ?_, h.2 (by decide)⟩
  rw [h.1 0 (by decide) (by decide) (by decide)]
  decide

theorem parseRows_some (l : List StopTimeRow)
    (h : ∀ r ∈ l, (seconds_after_midnight r.arrival_time).isSome
        ∧ (seconds_after_midnight r.departure_time).isSome) :
    ∃ pl, parseRows l = some pl := by
  induction l with
  | nil => exact ⟨[], rfl⟩
  | cons r rest ih =>
      obtain ⟨pl, hpl⟩ := ih (fun x hx => h x (List.mem_cons_of_mem _ hx))
      have hr := h r (List.mem_cons_self _ _)
      obtain ⟨a, ha⟩ := Option.isSome_iff_exists.mp hr.1
      obtain ⟨d, hd⟩ := Option.isSome_iff_exists.mp hr.2
      refine ⟨⟨r.trip_id, r.stop_id, r.stop_sequence, r.arrival_time,
        r.departure_time, a, d, 0⟩ :: pl, ?_⟩
      simp [parseRows, parseRow, ha, hd, hpl]

/-- Two rows of one trip sharing stop_sequence 1. -/
def stDup : List StopTimeRow :=
  [⟨"T1", "A", 1, "08:00:00", "08:00:00"⟩,
   ⟨"T1", "B", 1, "08:05:00", "08:05:00"⟩]

/-- C9 counterexample: two rows of the same trip share stop_sequence 1, yet
`interstop_time` raises nothing — there is no duplicate check anywhere in
the code — and both rows survive (in a stable order), one ordering having
been silently picked. -/
theorem interstop_time_duplicate_sequence_no_error :
    (interstop_time stDup).map (List.map (fun r => (r.trip_id, r.stop_id, r.stop_sequence)))
      = some [("T1", "A", 1), ("T1", "B", 1)] := by decide

/-- C9 amended: `interstop_time` sorts the rows by (trip_id, integer
stop_sequence) ascending — within a trip by stop_sequence ascending — and
never fails on duplicate sequence numbers: whenever every time string
parses, it succeeds and the output rows are a permutation of the input
rows (duplicates retained). -/
theorem interstop_time_sorted_perm (stop_times : List StopTimeRow)
    (hparse : ∀ r ∈ stop_times, (seconds_after_midnight r.arrival_time).isSome
        ∧ (seconds_after_midnight r.departure_time).isSome) :
    ∃ out, interstop_time stop_times = some out
      ∧ (out.map baseRow).Perm stop_times
      ∧ (out.map baseRow).Sorted stKeyLe
      ∧ (out.map baseRow).Pairwise
          (fun a b => a.trip_id = b.trip_id → a.stop_sequence ≤ b.stop_sequence) := by
  have hmem : ∀ r ∈ List.insertionSort stKeyLe stop_times,
      (seconds_after_midnight r.arrival_time).isSome
        ∧ (seconds_after_midnight r.departure_time).isSome := by
    intro r hrmem
    exact hparse r ((List.perm_insertionSort stKeyLe stop_times).mem_iff.mp hrmem)
  obtain ⟨pl, hpl⟩ := parseRows_some _ hmem
  refine ⟨addInterstop none pl, ?_, ?_, ?_, ?_⟩
  · unfold interstop_time
    rw [hpl]
  · rw [addInterstop_baseRow, parseRows_baseRow hpl]
    exact List.perm_insertionSort stKeyLe stop_times
  · rw [addInterstop_baseRow, parseRows_baseRow hpl]
    exact List.sorted_insertionSort stKeyLe stop_times
  · rw [addInterstop_baseRow, parseRows_baseRow hpl]
    apply List.Pairwise.imp ?_ (List.sorted_insertionSort stKeyLe stop_times)
    intro a b hab heq
    rcases hab with hlt | ⟨_, hle⟩
    · exfalso
      rw [heq] at hlt
      rw [charListLt_irrefl] at hlt
      cases hlt
    · exact hle

theorem interstop_time_sorted_perm_witness :
    ∃ out, interstop_time stDup = some out
      ∧ (out.map baseRow).Perm stDup
      ∧ (out.map baseRow).Sorted stKeyLe
      ∧ (out.map baseRow).Pairwise
          (fun a b => a.trip_id = b.trip_id → a.stop_sequence ≤ b.stop_sequence) :=
  interstop_time_sorted_perm stDup (by decide)

/-! ### `get_interstop_speed`

Coordinates and derived metric quantities are floating point in the source;
the embedding idealises them as rationals.  None of that matters for the
function's return value: the Python function body assigns a chain of local
frames (`trips`, `stop_times` with geometry and shape columns, ...) and
then ends — there is no `return` statement and no aggregation loop, so the
call evaluates to `None` for every input, in contradiction with the
docstring's promise of a per-route speed dictionary. -/

structure StopRow where
  stop_id : String
  stop_lon : ℚ
  stop_lat : ℚ
deriving DecidableEq, Repr

structure ShapeRow where
  shape_id : String
  shape_pt_lon : ℚ
  shape_pt_lat : ℚ
  shape_pt_sequence : Int
deriving DecidableEq, Repr

/-- The per-route aggregate record the spec requires `analyze` to return. -/
structure AggregateSpeed where
  total_distance_meters : ℚ
  total_elapsed_seconds : Int
  average_speed_mps : ℚ
  segment_count : Nat
  outlier_count : Nat
deriving DecidableEq, Repr

set_option linter.unusedVariables false in
/-- The function `get_interstop_speed(gtfs, date, crs, format, routes)`.  The body
builds the joined frames and falls off the end: Python returns `None`. -/
def get_interstop_speed (trips : List Trip) (stop_times : List StopTimeRow)
    (stops : List StopRow) (shapes : List ShapeRow) (calendar : List CalendarRow)
    (calendar_dates : Option RawTable) (date : String) (crs : Int)
    (routes : List String) : Option (List (String × AggregateSpeed)) :=
  none

/-- C7: `get_interstop_speed` never returns the claimed route_id →
{total_distance_meters, total_elapsed_seconds, average_speed_mps,
segment_count, outlier_count} mapping: the function body has no `return`
statement (and no aggregation step at all), so it returns `None` on every
input — contradicting its own docstring, which promises "a dictionary
containing the average speed for each route". -/
theorem get_interstop_speed_returns_none (trips : List Trip)
    (stop_times : List StopTimeRow) (stops : List StopRow) (shapes : List ShapeRow)
    (calendar : List CalendarRow) (calendar_dates : Option RawTable)
    (date : String) (crs : Int) (routes : List String) :
    get_interstop_speed trips stop_times stops shapes calendar calendar_dates
      date crs routes = none := rfl

end GTFS
